import Mathlib

/-!
# Package `log` (`log.go`): a leveled console logger

Shallow embedding of `log.go` and the properties of its line format.

* Go strings are byte strings.  They are embedded as Lean strings; every byte the
  code inspects (`/`, `.`, `%`, ESC, `[`, newline) is ASCII, and an ASCII byte never
  occurs inside a multi-byte UTF-8 sequence, so working on characters agrees
  with working on bytes for UTF-8 text.
* `type Level int` is embedded as `Int`.
* The package variables are the fields of `Globals`.
* The Go runtime and standard library answers that depend on the running process
  (`runtime.Caller`, `runtime.FuncForPC`, `time.Now().Format`, and `fmt.Sprintf`
  on the caller's template) are the fields of `Runtime`.
* What a call does to the outside world is a list of `Effect`s in program order.
-/

namespace Log

/-! ## Standard library functions called by `log.go` -/

/-- Unix value of `os.IsPathSeparator`: the only separator is the slash. -/
def isPathSeparator (c : Char) : Bool := c == '/'

/-- Go `filepath.Base` (Unix, empty volume name): the empty path gives `.`,
trailing separators are stripped, the text after the last remaining separator is
returned, and a path of separators only gives one separator. -/
def Base (path : String) : String :=
  if path.data = [] then "."
  else
    let stripped := path.data.reverse.dropWhile isPathSeparator
    let last := (stripped.takeWhile (fun c => !isPathSeparator c)).reverse
    if last = [] then "/" else String.mk last

/-- Loop of Go `filepath.Ext`, run on the reversed path: `rev` holds the bytes
`path[i], path[i-1], ...` still to visit and `acc` is `path[i+1:]`. -/
def extLoop : List Char → List Char → List Char
  | [], _ => []
  | c :: rev, acc =>
    if isPathSeparator c then []
    else if c = '.' then c :: acc
    else extLoop rev (c :: acc)

/-- Go `filepath.Ext`: the suffix beginning at the final dot in the final
element of the path, empty if there is no dot. -/
def Ext (path : String) : String := String.mk (extLoop path.data.reverse [])

/-- Go `strings.TrimLeft`: drop all leading characters contained in `cutset`. -/
def TrimLeft (s cutset : String) : String :=
  String.mk (s.data.dropWhile (fun c => decide (c ∈ cutset.data)))

/-- An operand of the format literals of `log.go`. -/
inductive FmtArg where
  | str (s : String)
  | int (n : Int)

/-- Verb processing of `fmt` restricted to what the format literals of `log.go`
use: `%s` applied to a string and `%d` applied to an int; every other character is
copied.  -/
def fmtVerbs : List Char → List FmtArg → List Char
  | '%' :: 's' :: rest, FmtArg.str s :: as => s.data ++ fmtVerbs rest as
  | '%' :: 'd' :: rest, FmtArg.int n :: as => (toString n).data ++ fmtVerbs rest as
  | c :: rest, as => c :: fmtVerbs rest as
  | [], _ => []

/-- Go `fmt.Sprintf` on a format literal of `log.go`. -/
def Sprintf (format : String) (args : List FmtArg) : String :=
  String.mk (fmtVerbs format.data args)

/-! ## Package state and environment -/

/-- The type `Level` of `log.go`. -/
abbrev Level := Int

@[reducible] def DEBUG : Level := 0
@[reducible] def INFO : Level := 1
@[reducible] def WARNING : Level := 2
@[reducible] def ERROR : Level := 3
@[reducible] def FATAL : Level := 4

/-- Initial value of the package variable `LevelFlags`. -/
def LevelFlags : List String := ["DEBUG", " INFO", " WARN", "ERROR", "FATAL"]

/-- The package variables of `log.go` with their initial values. -/
structure Globals where
  Prefix : String := "[Log]"
  TimeFormat : String := "06-01-02 15:04:05"
  NonColor : Bool := false
  ShowDepth : Bool := false
  CallerDepth : Int := 2
  LevelFlags : List String := Log.LevelFlags

/-- The function `init` of `log.go`, given the value of `runtime.GOOS`. -/
def init (goos : String) (g : Globals) : Globals :=
  if goos = "windows" then { g with NonColor := true } else g

/-- What `runtime.Caller` reports when `ok` is true. -/
structure Frame where
  pc : Nat
  file : String
  line : Int

/-- Answers of the Go runtime and library during one call of `Print`; `α` is the
type of the variadic arguments.
* `Caller skip` is `runtime.Caller(skip)` called inside `Print`, `none` when `ok` is false;
* `FuncForPC pc` is the `Name()` of `runtime.FuncForPC(pc)`, `none` when it is nil;
* `Now layout` is `time.Now().Format(layout)`;
* `Sprintf format args` is `fmt.Sprintf(format, args...)` on the caller's template. -/
structure Runtime (α : Type) where
  Caller : Int → Option Frame
  FuncForPC : Nat → Option String
  Now : String → String
  Sprintf : String → List α → String

/-- Observable actions of a call, in program order. -/
inductive Effect where
  | stdout (text : String)
  | exit (code : Int)
  | indexOutOfRange
  deriving DecidableEq, Repr

/-- Go slice indexing `s[i]` with an `int` index: `none` is the run-time panic. -/
def index (s : List String) (i : Int) : Option String :=
  if i < 0 then none else s.get? i.toNat

/-- Go `fmt.Printf` on a format literal of `log.go`. -/
def Printf (format : String) (args : List FmtArg) : Effect :=
  Effect.stdout (Sprintf format args)

/-- The `depthInfo` computed by lines 54-68 of `Print`. -/
def depthInfo {α : Type} (g : Globals) (rt : Runtime α) : String :=
  if g.ShowDepth then
    match rt.Caller g.CallerDepth with
    | some fr =>
      let fnName :=
        match rt.FuncForPC fr.pc with
        | none => "?()"
        | some name => TrimLeft (Ext name) "." ++ "()"
      Sprintf "[%s:%d %s] " [FmtArg.str (Base fr.file), FmtArg.int fr.line, FmtArg.str fnName]
    | none => ""
  else ""

/-- The five operands every `fmt.Printf` call of `Print` passes, evaluated left
to right; `none` when `LevelFlags[level]` panics, which happens before anything
is written. -/
def operands {α : Type} (g : Globals) (rt : Runtime α) (level : Level)
    (format : String) (args : List α) : Option (List FmtArg) :=
  match index g.LevelFlags level with
  | none => none
  | some flag =>
    some [FmtArg.str g.Prefix, FmtArg.str (rt.Now g.TimeFormat), FmtArg.str flag,
      FmtArg.str (depthInfo g rt), FmtArg.str (rt.Sprintf format args)]

/-- The function `Print` of `log.go`. -/
def Print {α : Type} (g : Globals) (rt : Runtime α) (level : Level)
    (format : String) (args : List α) : List Effect :=
  match operands g rt level format args with
  | none => [Effect.indexOutOfRange]
  | some ops =>
    if g.NonColor then
      Printf "%s %s [%s] %s%s\n" ops :: (if level = FATAL then [Effect.exit 1] else [])
    else if level = DEBUG then
      [Printf "%s \x1b[36m%s\x1b[0m [\x1b[34m%s\x1b[0m] %s%s\n" ops]
    else if level = INFO then
      [Printf "%s \x1b[36m%s\x1b[0m [\x1b[32m%s\x1b[0m] %s%s\n" ops]
    else if level = WARNING then
      [Printf "%s \x1b[36m%s\x1b[0m [\x1b[33m%s\x1b[0m] %s%s\n" ops]
    else if level = ERROR then
      [Printf "%s \x1b[36m%s\x1b[0m [\x1b[31m%s\x1b[0m] %s%s\n" ops]
    else if level = FATAL then
      [Printf "%s \x1b[36m%s\x1b[0m [\x1b[35m%s\x1b[0m] %s%s\n" ops, Effect.exit 1]
    else
      [Printf "%s %s [%s] %s%s\n" ops]

/-- The function `Debug` of `log.go`. -/
def Debug {α : Type} (g : Globals) (rt : Runtime α) (format : String) (args : List α) :
    List Effect :=
  Print g rt DEBUG format args

/-- The function `Warn` of `log.go`. -/
def Warn {α : Type} (g : Globals) (rt : Runtime α) (format : String) (args : List α) :
    List Effect :=
  Print g rt WARNING format args

/-- The function `Info` of `log.go`. -/
def Info {α : Type} (g : Globals) (rt : Runtime α) (format : String) (args : List α) :
    List Effect :=
  Print g rt INFO format args

/-- The function `Error` of `log.go`. -/
def Error {α : Type} (g : Globals) (rt : Runtime α) (format : String) (args : List α) :
    List Effect :=
  Print g rt ERROR format args

/-- The function `Fatal` of `log.go`. -/
def Fatal {α : Type} (g : Globals) (rt : Runtime α) (format : String) (args : List α) :
    List Effect :=
  Print g rt FATAL format args

/-! ## Observations and reference texts -/

/-- Everything the call wrote to standard output. -/
def written : List Effect → String
  | [] => ""
  | Effect.stdout text :: es => text ++ written es
  | _ :: es => written es

/-- Severity label the line format prescribes for each of the five levels. -/
def label (level : Level) : String :=
  if level = DEBUG then "DEBUG"
  else if level = INFO then " INFO"
  else if level = WARNING then " WARN"
  else if level = ERROR then "ERROR"
  else "FATAL"

/-- The uncoloured line `<prefix> <timestamp> [<label>] <location><message>` and its newline. -/
def plainLine (pre ts lab loc msg : String) : String :=
  pre ++ " " ++ ts ++ " [" ++ lab ++ "] " ++ loc ++ msg ++ "\n"

/-- ANSI reset sequence. -/
def reset : String := "\x1b[0m"

/-- The line with the timestamp wrapped in `tsColor` .. reset and the label wrapped
in `labColor` .. reset. -/
def colorLine (tsColor labColor pre ts lab loc msg : String) : String :=
  pre ++ " " ++ tsColor ++ ts ++ reset ++ " [" ++ labColor ++ lab ++ reset ++ "] "
    ++ loc ++ msg ++ "\n"

/-- Colour code `log.go` puts in front of the label of each of the five levels. -/
def labelColor (level : Level) : String :=
  if level = DEBUG then "\x1b[34m"
  else if level = INFO then "\x1b[32m"
  else if level = WARNING then "\x1b[33m"
  else if level = ERROR then "\x1b[31m"
  else "\x1b[35m"

/-- The complete line `Print` is to write for one of the five levels under the
current colour setting. -/
def logLine {α : Type} (g : Globals) (rt : Runtime α) (level : Level)
    (format : String) (args : List α) : String :=
  if g.NonColor then
    plainLine g.Prefix (rt.Now g.TimeFormat) (label level) (depthInfo g rt)
      (rt.Sprintf format args)
  else
    colorLine "\x1b[36m" (labelColor level) g.Prefix (rt.Now g.TimeFormat) (label level)
      (depthInfo g rt) (rt.Sprintf format args)

/-- An ANSI colour selection: ESC, `[`, `3`, one digit, `m`. -/
def isColorCode (c : String) : Bool :=
  match c.data with
  | ['\x1b', '[', '3', d, 'm'] => d.isDigit
  | _ => false

/-- The two bytes that open an ANSI escape sequence. -/
def escSeq : List Char := ['\x1b', '[']

/-- A runtime for concrete evaluation: the caller two frames up is
`(*Server).Run` at `main.go:42`, the clock reads a fixed instant and the template
is rendered with string operands. -/
def demoRuntime : Runtime String where
  Caller := fun skip =>
    if skip = 2 then some { pc := 7, file := "/home/u/go/src/app/main.go", line := 42 }
    else none
  FuncForPC := fun pc => if pc = 7 then some "github.com/u/app.(*Server).Run" else none
  Now := fun _ => "24-03-09 10:11:12"
  Sprintf := fun format args => Sprintf format (args.map FmtArg.str)

/-- The runtime `demoRuntime` when the stack walk finds no frame. -/
def noFrameRuntime : Runtime String := { demoRuntime with Caller := fun _ => none }

/-- The runtime `demoRuntime` when no function is known for the program counter. -/
def noFuncRuntime : Runtime String := { demoRuntime with FuncForPC := fun _ => none }

/-! ## Format literals -/

theorem Sprintf_plain (a b c d e : String) :
    Sprintf "%s %s [%s] %s%s\n"
      [FmtArg.str a, FmtArg.str b, FmtArg.str c, FmtArg.str d, FmtArg.str e]
      = plainLine a b c d e := by
  apply String.ext
  simp [Sprintf, fmtVerbs, plainLine]

theorem Sprintf_debug (a b c d e : String) :
    Sprintf "%s \x1b[36m%s\x1b[0m [\x1b[34m%s\x1b[0m] %s%s\n"
      [FmtArg.str a, FmtArg.str b, FmtArg.str c, FmtArg.str d, FmtArg.str e]
      = colorLine "\x1b[36m" "\x1b[34m" a b c d e := by
  apply String.ext
  simp [Sprintf, fmtVerbs, colorLine, reset]

theorem Sprintf_info (a b c d e : String) :
    Sprintf "%s \x1b[36m%s\x1b[0m [\x1b[32m%s\x1b[0m] %s%s\n"
      [FmtArg.str a, FmtArg.str b, FmtArg.str c, FmtArg.str d, FmtArg.str e]
      = colorLine "\x1b[36m" "\x1b[32m" a b c d e := by
  apply String.ext
  simp [Sprintf, fmtVerbs, colorLine, reset]

theorem Sprintf_warning (a b c d e : String) :
    Sprintf "%s \x1b[36m%s\x1b[0m [\x1b[33m%s\x1b[0m] %s%s\n"
      [FmtArg.str a, FmtArg.str b, FmtArg.str c, FmtArg.str d, FmtArg.str e]
      = colorLine "\x1b[36m" "\x1b[33m" a b c d e := by
  apply String.ext
  simp [Sprintf, fmtVerbs, colorLine, reset]

theorem Sprintf_error (a b c d e : String) :
    Sprintf "%s \x1b[36m%s\x1b[0m [\x1b[31m%s\x1b[0m] %s%s\n"
      [FmtArg.str a, FmtArg.str b, FmtArg.str c, FmtArg.str d, FmtArg.str e]
      = colorLine "\x1b[36m" "\x1b[31m" a b c d e := by
  apply String.ext
  simp [Sprintf, fmtVerbs, colorLine, reset]

theorem Sprintf_fatal (a b c d e : String) :
    Sprintf "%s \x1b[36m%s\x1b[0m [\x1b[35m%s\x1b[0m] %s%s\n"
      [FmtArg.str a, FmtArg.str b, FmtArg.str c, FmtArg.str d, FmtArg.str e]
      = colorLine "\x1b[36m" "\x1b[35m" a b c d e := by
  apply String.ext
  simp [Sprintf, fmtVerbs, colorLine, reset]

theorem Sprintf_depth (a c : String) (n : Int) :
    Sprintf "[%s:%d %s] " [FmtArg.str a, FmtArg.int n, FmtArg.str c]
      = "[" ++ a ++ ":" ++ toString n ++ " " ++ c ++ "] " := by
  apply String.ext
  simp [Sprintf, fmtVerbs]

/-! ## The label table -/

theorem index_LevelFlags (level : Level)
    (hlevel : level ∈ [DEBUG, INFO, WARNING, ERROR, FATAL]) :
    index LevelFlags level = some (label level) := by
  simp only [List.mem_cons, List.mem_singleton, List.not_mem_nil, or_false] at hlevel
  rcases hlevel with h | h | h | h | h <;> subst h <;> rfl

theorem index_LevelFlags_none (level : Level) (h : level < 0 ∨ 4 < level) :
    index LevelFlags level = none := by
  unfold index
  by_cases h0 : level < 0
  · simp [h0]
  · have h4 : (4 : Int) < level := by
      rcases h with h | h
      · exact absurd h h0
      · exact h
    have h5 : 5 ≤ Int.toNat level := by
      have := Int.toNat_of_nonneg (Int.not_lt.mp h0)
      omega
    simp [h0, LevelFlags, List.get?_eq_none, h5]

/-! ## The trace of `Print` at the five levels -/

theorem Print_plain {α : Type} (g : Globals) (rt : Runtime α) (level : Level)
    (format : String) (args : List α) (hflags : g.LevelFlags = LevelFlags)
    (hnc : g.NonColor = true) (hlevel : level ∈ [DEBUG, INFO, WARNING, ERROR, FATAL]) :
    Print g rt level format args
      = Effect.stdout (plainLine g.Prefix (rt.Now g.TimeFormat) (label level)
          (depthInfo g rt) (rt.Sprintf format args))
        :: (if level = FATAL then [Effect.exit 1] else []) := by
  simp only [Print, operands, hflags, index_LevelFlags level hlevel, hnc, if_true, Printf,
    Sprintf_plain]

theorem Print_color {α : Type} (g : Globals) (rt : Runtime α) (level : Level)
    (format : String) (args : List α) (hflags : g.LevelFlags = LevelFlags)
    (hnc : g.NonColor = false) (hlevel : level ∈ [DEBUG, INFO, WARNING, ERROR, FATAL]) :
    Print g rt level format args
      = Effect.stdout (colorLine "\x1b[36m" (labelColor level) g.Prefix (rt.Now g.TimeFormat)
          (label level) (depthInfo g rt) (rt.Sprintf format args))
        :: (if level = FATAL then [Effect.exit 1] else []) := by
  have hidx := index_LevelFlags level hlevel
  simp only [List.mem_cons, List.mem_singleton, List.not_mem_nil, or_false] at hlevel
  rcases hlevel with h | h | h | h | h <;> subst h <;>
    simp [Print, operands, hflags, hidx, hnc, Printf, Sprintf_debug, Sprintf_info,
      Sprintf_warning, Sprintf_error, Sprintf_fatal, labelColor]

theorem Print_trace {α : Type} (g : Globals) (rt : Runtime α) (level : Level)
    (format : String) (args : List α) (hflags : g.LevelFlags = LevelFlags)
    (hlevel : level ∈ [DEBUG, INFO, WARNING, ERROR, FATAL]) :
    Print g rt level format args
      = Effect.stdout (logLine g rt level format args)
        :: (if level = FATAL then [Effect.exit 1] else []) := by
  cases hnc : g.NonColor
  · rw [Print_color g rt level format args hflags hnc hlevel]
    simp [logLine, hnc]
  · rw [Print_plain g rt level format args hflags hnc hlevel]
    simp [logLine, hnc]

theorem Print_out_of_range {α : Type} (g : Globals) (rt : Runtime α) (level : Level)
    (format : String) (args : List α) (hflags : g.LevelFlags = LevelFlags)
    (hlevel : level < 0 ∨ 4 < level) :
    Print g rt level format args = [Effect.indexOutOfRange] := by
  simp only [Print, operands, hflags, index_LevelFlags_none level hlevel]

theorem written_trace (line : String) (level : Level) :
    written (Effect.stdout line :: (if level = FATAL then [Effect.exit 1] else [])) = line := by
  apply String.ext
  split <;> simp [written]

theorem isColorCode_labelColor (level : Level) : isColorCode (labelColor level) = true := by
  unfold labelColor
  split_ifs <;> decide

theorem depthInfo_NonColor {α : Type} (g : Globals) (rt : Runtime α) (b : Bool) :
    depthInfo { g with NonColor := b } rt = depthInfo g rt := rfl

/-! ## Occurrences of the two bytes ESC `[` -/

theorem pair_infix_append {a b : Char} {xs ys : List Char} (h : [a, b] <:+: xs ++ ys) :
    [a, b] <:+: xs ∨ [a, b] <:+: ys ∨ (xs.getLast? = some a ∧ ys.head? = some b) := by
  obtain ⟨s, t, hst⟩ := h
  rw [List.append_assoc] at hst
  rcases List.append_eq_append_iff.mp hst with ⟨m, hxs, hm⟩ | ⟨m, _, hys⟩
  · cases m with
    | nil =>
      right; left
      exact ⟨[], t, by simpa using hm⟩
    | cons x m =>
      cases m with
      | nil =>
        right; right
        simp only [List.cons_append, List.nil_append, List.cons.injEq] at hm
        obtain ⟨hx, hys⟩ := hm
        subst hx
        subst hxs
        simp [← hys]
      | cons y r =>
        left
        simp only [List.cons_append, List.nil_append, List.cons.injEq] at hm
        obtain ⟨hx, hy, _⟩ := hm
        subst hx
        subst hy
        exact ⟨s, r, by simp [hxs]⟩
  · right; left
    exact ⟨m, t, by simp [hys]⟩

theorem infix_left {l xs ys : List Char} (h : l <:+: xs) : l <:+: xs ++ ys :=
  h.trans (List.prefix_append xs ys).isInfix

theorem infix_right {l xs ys : List Char} (h : l <:+: ys) : l <:+: xs ++ ys :=
  h.trans (List.suffix_append xs ys).isInfix

theorem esc_step_lit {xs lit : List Char} (hlit : ¬ escSeq <:+: lit)
    (hhead : lit.head? ≠ some '[') (h : escSeq <:+: xs ++ lit) : escSeq <:+: xs := by
  rcases pair_infix_append h with h | h | ⟨_, h⟩
  · exact h
  · exact absurd h hlit
  · exact absurd h hhead

theorem esc_step_seg {xs seg : List Char} (hlast : xs.getLast? ≠ some '\x1b')
    (h : escSeq <:+: xs ++ seg) : escSeq <:+: xs ∨ escSeq <:+: seg := by
  rcases pair_infix_append h with h | h | ⟨h, _⟩
  · exact Or.inl h
  · exact Or.inr h
  · exact absurd h hlast

theorem label_no_esc (level : Level) :
    ¬ escSeq <:+: (label level).data ∧ (label level).data.head? ≠ some '[' := by
  unfold label
  split_ifs <;> decide

/-! ## Shape of the location segment -/

theorem depthInfo_last {α : Type} (g : Globals) (rt : Runtime α) :
    (depthInfo g rt).data = [] ∨ (depthInfo g rt).data.getLast? = some ' ' := by
  unfold depthInfo
  split
  · split
    · right
      rw [Sprintf_depth]
      simp only [String.data_append, List.getLast?_append]
      rfl
    · left; rfl
  · left; rfl

theorem getLast?_append_depthInfo {α : Type} (g : Globals) (rt : Runtime α) (xs : List Char)
    (hxs : xs.getLast? = some ' ') :
    (xs ++ (depthInfo g rt).data).getLast? = some ' ' := by
  rcases depthInfo_last g rt with h | h
  · simp [h, hxs]
  · simp [List.getLast?_append, h]

/-! ## Base name and short function name -/

theorem isPathSeparator_iff (c : Char) : isPathSeparator c = true ↔ c = '/' := by
  simp [isPathSeparator]

theorem Base_spec (f : String) (hf : ∃ c ∈ f.data, c ≠ '/') :
    ∃ dir trail, f.data = dir ++ (Base f).data ++ trail
      ∧ (dir = [] ∨ dir.getLast? = some '/') ∧ (∀ c ∈ trail, c = '/')
      ∧ '/' ∉ (Base f).data ∧ (Base f).data ≠ [] := by
  obtain ⟨c, hc, hne⟩ := hf
  have hdata : f.data ≠ [] := List.ne_nil_of_mem hc
  have hr : f.data.reverse = f.data.reverse.takeWhile isPathSeparator
      ++ f.data.reverse.dropWhile isPathSeparator :=
    (List.takeWhile_append_dropWhile isPathSeparator f.data.reverse).symm
  generalize htw : f.data.reverse.takeWhile isPathSeparator = tw at hr
  have htwsep : ∀ x ∈ tw, x = '/' := by
    intro x hx
    rw [← htw] at hx
    exact (isPathSeparator_iff x).mp (List.mem_takeWhile_imp hx)
  have hhead := List.head?_dropWhile_not isPathSeparator f.data.reverse
  have hBase : Base f = if ((f.data.reverse.dropWhile isPathSeparator).takeWhile
      (fun c => !isPathSeparator c)).reverse = [] then "/"
      else String.mk ((f.data.reverse.dropWhile isPathSeparator).takeWhile
        (fun c => !isPathSeparator c)).reverse := by
    simp only [Base, hdata, if_false]
  generalize hst : f.data.reverse.dropWhile isPathSeparator = stripped at hr hhead hBase
  have hs : stripped = stripped.takeWhile (fun c => !isPathSeparator c)
      ++ stripped.dropWhile (fun c => !isPathSeparator c) :=
    (List.takeWhile_append_dropWhile _ stripped).symm
  have hhead2 := List.head?_dropWhile_not (fun c => !isPathSeparator c) stripped
  have hlastne : stripped.takeWhile (fun c => !isPathSeparator c) ≠ [] := by
    cases stripped with
    | nil =>
      exfalso
      rw [List.append_nil] at hr
      have : c ∈ tw := by
        rw [← hr]
        exact List.mem_reverse.mpr hc
      exact hne (htwsep c this)
    | cons x xs =>
      simp only [List.head?_cons] at hhead
      simp [List.takeWhile_cons, hhead]
  generalize hl : stripped.takeWhile (fun c => !isPathSeparator c) = last at hs hlastne hBase
  have hlastsep : ∀ x ∈ last, x ≠ '/' := by
    intro x hx hx'
    rw [← hl] at hx
    have := List.mem_takeWhile_imp hx
    simp [isPathSeparator, hx'] at this
  generalize hrs : stripped.dropWhile (fun c => !isPathSeparator c) = rest at hs hhead2
  have hB : Base f = String.mk last.reverse := by
    rw [hBase, if_neg]
    simpa using hlastne
  refine ⟨rest.reverse, tw.reverse, ?_, ?_, ?_, ?_, ?_⟩
  · have : f.data = (tw ++ (last ++ rest)).reverse := by
      rw [← hs, ← hr, List.reverse_reverse]
    rw [this, hB]
    simp
  · cases rest with
    | nil => left; rfl
    | cons x xs =>
      right
      have hx : isPathSeparator x = true := by simpa using hhead2
      rw [List.getLast?_reverse, List.head?_cons, (isPathSeparator_iff x).mp hx]
  · intro x hx
    exact htwsep x (List.mem_reverse.mp hx)
  · rw [hB]
    intro hmem
    exact hlastsep '/' (List.mem_reverse.mp hmem) rfl
  · rw [hB]
    simpa using hlastne

theorem extLoop_spec (rev acc : List Char)
    (h : '.' ∈ rev.takeWhile (fun c => !isPathSeparator c)) :
    ∃ body rest, extLoop rev acc = '.' :: (body.reverse ++ acc) ∧ rev = body ++ '.' :: rest
      ∧ '.' ∉ body ∧ '/' ∉ body := by
  induction rev generalizing acc with
  | nil => simp at h
  | cons c rev ih =>
    by_cases hsep : isPathSeparator c = true
    · simp [List.takeWhile_cons, hsep] at h
    · by_cases hdot : c = '.'
      · subst hdot
        exact ⟨[], rev, by simp [extLoop, hsep], rfl, by simp, by simp⟩
      · have hmem : '.' ∈ rev.takeWhile (fun c => !isPathSeparator c) := by
          simp only [List.takeWhile_cons, hsep, Bool.not_false, if_true, Bool.false_eq_true,
            not_false_eq_true, List.mem_cons] at h
          rcases h with h | h
          · exact absurd h.symm hdot
          · exact h
        obtain ⟨body, rest, hloop, hrev, hnd, hns⟩ := ih (c :: acc) hmem
        refine ⟨c :: body, rest, ?_, by simp [hrev], ?_, ?_⟩
        · simp [extLoop, hsep, hdot, hloop]
        · simp only [List.mem_cons, not_or]
          exact ⟨fun h => hdot h.symm, hnd⟩
        · simp only [List.mem_cons, not_or]
          refine ⟨fun h => hsep ?_, hns⟩
          rw [← h]
          rfl

theorem dropWhile_of_not_mem (body : List Char) (h : '.' ∉ body) :
    body.dropWhile (fun c => decide (c ∈ (".": String).data)) = body := by
  cases body with
  | nil => rfl
  | cons x xs =>
    have hx : x ≠ '.' := fun hx => h (by simp [hx])
    simp [List.dropWhile_cons, hx]

theorem shortName_spec (q : String)
    (hq : ∃ qual name, q.data = qual ++ '.' :: name ∧ '/' ∉ name) :
    ∃ qual, q.data = qual ++ '.' :: (TrimLeft (Ext q) ".").data
      ∧ '.' ∉ (TrimLeft (Ext q) ".").data ∧ '/' ∉ (TrimLeft (Ext q) ".").data := by
  obtain ⟨qual, name, hdata, hname⟩ := hq
  have hrev : q.data.reverse = name.reverse ++ '.' :: qual.reverse := by
    rw [hdata]
    simp
  have hall : ∀ a ∈ name.reverse, (fun c => !isPathSeparator c) a = true := by
    intro a ha
    have hne : a ≠ '/' := fun h => hname (h ▸ List.mem_reverse.mp ha)
    simp [isPathSeparator, hne]
  have hmem : '.' ∈ q.data.reverse.takeWhile (fun c => !isPathSeparator c) := by
    rw [hrev, List.takeWhile_append_of_pos hall]
    have hdotsep : isPathSeparator '.' = false := by decide
    simp [List.takeWhile_cons, hdotsep]
  obtain ⟨body, rest, hloop, hsplit, hnd, hns⟩ := extLoop_spec q.data.reverse [] hmem
  have hshort : (TrimLeft (Ext q) ".").data = body.reverse := by
    have hdot : ('.' : Char) ∈ (".": String).data := by decide
    simp only [TrimLeft, Ext, hloop, List.append_nil, List.dropWhile_cons, hdot, decide_True,
      if_true]
    exact dropWhile_of_not_mem body.reverse (fun h => hnd (List.mem_reverse.mp h))
  refine ⟨rest.reverse, ?_, ?_, ?_⟩
  · rw [hshort]
    have : q.data = (body ++ '.' :: rest).reverse := by
      rw [← hsplit, List.reverse_reverse]
    rw [this]
    simp
  · rw [hshort]
    exact fun h => hnd (List.mem_reverse.mp h)
  · rw [hshort]
    exact fun h => hns (List.mem_reverse.mp h)

/-! ## Properties of the written line -/

/-- C1: at each of the five levels, with NonColor set, the text written is exactly
prefix, space, timestamp, space, the bracketed label, space, location, message and a
newline; the labels are DEBUG, INFO, WARN, ERROR, FATAL padded on the left to five
characters; the location is empty when ShowDepth is off. -/
theorem noncolor_line_format {α : Type} (g : Globals) (rt : Runtime α) (level : Level)
    (format : String) (args : List α) (hflags : g.LevelFlags = LevelFlags)
    (hnc : g.NonColor = true) (hlevel : level ∈ [DEBUG, INFO, WARNING, ERROR, FATAL]) :
    written (Print g rt level format args)
        = g.Prefix ++ " " ++ rt.Now g.TimeFormat ++ " [" ++ label level ++ "] "
            ++ depthInfo g rt ++ rt.Sprintf format args ++ "\n"
      ∧ (label level).length = 5
      ∧ (label DEBUG = "DEBUG" ∧ label INFO = " INFO" ∧ label WARNING = " WARN"
          ∧ label ERROR = "ERROR" ∧ label FATAL = "FATAL")
      ∧ (g.ShowDepth = false → depthInfo g rt = "") := by
  refine ⟨?_, ?_, by decide, ?_⟩
  · rw [Print_plain g rt level format args hflags hnc hlevel, written_trace]
    rfl
  · simp only [List.mem_cons, List.mem_singleton, List.not_mem_nil, or_false] at hlevel
    rcases hlevel with h | h | h | h | h <;> subst h <;> decide
  · intro hsd
    simp [depthInfo, hsd]

/-- Scenario of C1: `Print(INFO, "user %s logged in", "alice")` with the default prefix,
colour off and location off. -/
theorem noncolor_line_format_witness :
    written (Print ({ NonColor := true } : Globals) demoRuntime INFO "user %s logged in"
      ["alice"]) = "[Log] 24-03-09 10:11:12 [ INFO] user alice logged in\n" :=
  (noncolor_line_format ({ NonColor := true } : Globals) demoRuntime INFO
    "user %s logged in" ["alice"] rfl rfl (by decide)).1.trans (by decide)

/-- C2, as stated, fails at DEBUG: with colour on, the label is not wrapped in the
cyan code 36; the text written is the line with the blue code 34 before the label. -/
theorem debug_label_not_cyan :
    written (Print ({} : Globals) demoRuntime DEBUG "x=%s" ["42"])
        ≠ "[Log] \x1b[36m24-03-09 10:11:12\x1b[0m [\x1b[36mDEBUG\x1b[0m] x=42\n"
      ∧ ¬ ("\x1b[36mDEBUG".data <:+: (written (Print ({} : Globals) demoRuntime DEBUG "x=%s"
            ["42"])).data)
      ∧ written (Print ({} : Globals) demoRuntime DEBUG "x=%s" ["42"])
        = "[Log] \x1b[36m24-03-09 10:11:12\x1b[0m [\x1b[34mDEBUG\x1b[0m] x=42\n" := by
  decide

/-- C2, amended: at each of the five levels, with NonColor unset, the timestamp is
wrapped in cyan (code 36) and reset, and the label is wrapped in the colour of the
level and reset: DEBUG blue (34), INFO green (32), WARNING yellow (33), ERROR red (31),
FATAL magenta (35). -/
theorem color_line_format {α : Type} (g : Globals) (rt : Runtime α) (level : Level)
    (format : String) (args : List α) (hflags : g.LevelFlags = LevelFlags)
    (hnc : g.NonColor = false) (hlevel : level ∈ [DEBUG, INFO, WARNING, ERROR, FATAL]) :
    written (Print g rt level format args)
        = g.Prefix ++ " " ++ "\x1b[36m" ++ rt.Now g.TimeFormat ++ "\x1b[0m" ++ " ["
            ++ labelColor level ++ label level ++ "\x1b[0m" ++ "] "
            ++ depthInfo g rt ++ rt.Sprintf format args ++ "\n"
      ∧ (labelColor DEBUG = "\x1b[34m" ∧ labelColor INFO = "\x1b[32m"
          ∧ labelColor WARNING = "\x1b[33m" ∧ labelColor ERROR = "\x1b[31m"
          ∧ labelColor FATAL = "\x1b[35m") := by
  refine ⟨?_, by decide⟩
  rw [Print_color g rt level format args hflags hnc hlevel, written_trace]
  rfl

/-- Instance of the amended C2: a warning with colour on. -/
theorem color_line_format_witness :
    written (Print ({} : Globals) demoRuntime WARNING "disk %s" ["full"])
      = "[Log] \x1b[36m24-03-09 10:11:12\x1b[0m [\x1b[33m WARN\x1b[0m] disk full\n" :=
  (color_line_format ({} : Globals) demoRuntime WARNING "disk %s" ["full"] rfl rfl
    (by decide)).1.trans (by decide)

/-- C3: at each of the five levels and under either colour setting, `Print` first
writes the complete line; it then exits with status 1 when the level is FATAL and does
nothing more otherwise, so it exits, and with status 1, exactly when the level is
FATAL. -/
theorem exit_iff_fatal {α : Type} (g : Globals) (rt : Runtime α) (level : Level)
    (format : String) (args : List α) (hflags : g.LevelFlags = LevelFlags)
    (hlevel : level ∈ [DEBUG, INFO, WARNING, ERROR, FATAL]) :
    (Effect.exit 1 ∈ Print g rt level format args ↔ level = FATAL)
      ∧ (level = FATAL → Print g rt level format args
          = [Effect.stdout (logLine g rt level format args), Effect.exit 1])
      ∧ (level ≠ FATAL → Print g rt level format args
          = [Effect.stdout (logLine g rt level format args)])
      ∧ (∀ code, Effect.exit code ∈ Print g rt level format args → code = 1)
      ∧ Effect.indexOutOfRange ∉ Print g rt level format args := by
  rw [Print_trace g rt level format args hflags hlevel]
  by_cases hf : level = FATAL
  · simp [hf]
  · simp [hf]

/-- Instance of C3: a fatal message with colour on is written in full, then the
process exits with status 1. -/
theorem exit_iff_fatal_witness :
    Print ({} : Globals) demoRuntime FATAL "unrecoverable: %s" ["disk full"]
      = [Effect.stdout
          "[Log] \x1b[36m24-03-09 10:11:12\x1b[0m [\x1b[35mFATAL\x1b[0m] unrecoverable: disk full\n",
         Effect.exit 1] :=
  ((exit_iff_fatal ({} : Globals) demoRuntime FATAL "unrecoverable: %s" ["disk full"] rfl
    (by decide)).2.1 rfl).trans (by decide)

/-- C4 at the failing inputs: with the five-entry table, level 5 (one past FATAL) and
level -1 make `LevelFlags[level]` panic under either colour setting; nothing is
written. -/
theorem unknown_level_index_panics :
    Print ({} : Globals) demoRuntime 5 "x" ([] : List String) = [Effect.indexOutOfRange]
      ∧ Print ({ NonColor := true } : Globals) demoRuntime 5 "x" ([] : List String)
          = [Effect.indexOutOfRange]
      ∧ Print ({} : Globals) demoRuntime (-1) "x" ([] : List String)
          = [Effect.indexOutOfRange]
      ∧ Print ({ NonColor := true } : Globals) demoRuntime (-1) "x" ([] : List String)
          = [Effect.indexOutOfRange] := by
  decide

/-- C6: at each of the five levels the coloured line is the uncoloured line with
four sequences inserted and nothing else changed: a colour code right before and a
reset right after the timestamp, and a colour code right before and a reset right
after the label inside its brackets. -/
theorem color_only_inserts_codes {α : Type} (g : Globals) (rt : Runtime α) (level : Level)
    (format : String) (args : List α) (hflags : g.LevelFlags = LevelFlags)
    (hlevel : level ∈ [DEBUG, INFO, WARNING, ERROR, FATAL]) :
    ∃ c₁ c₂ : String, isColorCode c₁ = true ∧ isColorCode c₂ = true ∧
      written (Print { g with NonColor := false } rt level format args)
        = g.Prefix ++ " " ++ c₁ ++ rt.Now g.TimeFormat ++ "\x1b[0m" ++ " [" ++ c₂
            ++ label level ++ "\x1b[0m" ++ "] " ++ depthInfo g rt
            ++ rt.Sprintf format args ++ "\n"
      ∧ written (Print { g with NonColor := true } rt level format args)
        = g.Prefix ++ " " ++ rt.Now g.TimeFormat ++ " [" ++ label level ++ "] "
            ++ depthInfo g rt ++ rt.Sprintf format args ++ "\n" := by
  refine ⟨"\x1b[36m", labelColor level, by decide, isColorCode_labelColor level, ?_, ?_⟩
  · rw [Print_color { g with NonColor := false } rt level format args hflags rfl hlevel,
      written_trace, depthInfo_NonColor]
    rfl
  · rw [Print_plain { g with NonColor := true } rt level format args hflags rfl hlevel,
      written_trace, depthInfo_NonColor]
    rfl

/-- Instance of C6: an error message under both colour settings. -/
theorem color_only_inserts_codes_witness :
    ∃ c₁ c₂ : String, isColorCode c₁ = true ∧ isColorCode c₂ = true ∧
      written (Print { ({} : Globals) with NonColor := false } demoRuntime ERROR "bad %s"
          ["input"])
        = "[Log]" ++ " " ++ c₁ ++ "24-03-09 10:11:12" ++ "\x1b[0m" ++ " [" ++ c₂
            ++ "ERROR" ++ "\x1b[0m" ++ "] " ++ "" ++ "bad input" ++ "\n"
      ∧ written (Print { ({} : Globals) with NonColor := true } demoRuntime ERROR "bad %s"
          ["input"])
        = "[Log]" ++ " " ++ "24-03-09 10:11:12" ++ " [" ++ "ERROR" ++ "] " ++ ""
            ++ "bad input" ++ "\n" :=
  color_only_inserts_codes ({} : Globals) demoRuntime ERROR "bad %s" ["input"] rfl (by decide)

/-- C9: each wrapper is `Print` at its fixed level with the template and the arguments
unchanged, and of the five only `Fatal` exits the process (with status 1). -/
theorem wrappers_are_Print {α : Type} (g : Globals) (rt : Runtime α) (format : String)
    (args : List α) (hflags : g.LevelFlags = LevelFlags) :
    Debug g rt format args = Print g rt DEBUG format args
      ∧ Info g rt format args = Print g rt INFO format args
      ∧ Warn g rt format args = Print g rt WARNING format args
      ∧ Error g rt format args = Print g rt ERROR format args
      ∧ Fatal g rt format args = Print g rt FATAL format args
      ∧ Effect.exit 1 ∈ Fatal g rt format args
      ∧ (∀ code, Effect.exit code ∉ Debug g rt format args)
      ∧ (∀ code, Effect.exit code ∉ Info g rt format args)
      ∧ (∀ code, Effect.exit code ∉ Warn g rt format args)
      ∧ (∀ code, Effect.exit code ∉ Error g rt format args) := by
  refine ⟨rfl, rfl, rfl, rfl, rfl, ?_, ?_, ?_, ?_, ?_⟩
  · rw [Fatal, Print_trace g rt FATAL format args hflags (by decide)]
    simp
  · intro code
    rw [Debug, Print_trace g rt DEBUG format args hflags (by decide)]
    simp
  · intro code
    rw [Info, Print_trace g rt INFO format args hflags (by decide)]
    simp
  · intro code
    rw [Warn, Print_trace g rt WARNING format args hflags (by decide)]
    simp
  · intro code
    rw [Error, Print_trace g rt ERROR format args hflags (by decide)]
    simp

/-- Instance of C9 with the initial package variables. -/
theorem wrappers_are_Print_witness :
    Debug ({} : Globals) demoRuntime "x=%s" ["42"]
        = Print ({} : Globals) demoRuntime DEBUG "x=%s" ["42"]
      ∧ Effect.exit 1 ∈ Fatal ({} : Globals) demoRuntime "x=%s" ["42"]
      ∧ (∀ code, Effect.exit code ∉ Error ({} : Globals) demoRuntime "x=%s" ["42"]) :=
  have h := wrappers_are_Print ({} : Globals) demoRuntime "x=%s" ["42"] rfl
  ⟨h.1, h.2.2.2.2.2.1, h.2.2.2.2.2.2.2.2.2⟩

/-- C5, as stated, fails in both failure modes: when the stack walk finds no frame
the location segment is empty and the line carries no placeholder; when no function is
found the placeholder is there but so are the file name and the line number. -/
theorem resolution_failure_not_placeholder :
    depthInfo ({ ShowDepth := true } : Globals) noFrameRuntime = ""
      ∧ written (Print ({ ShowDepth := true, NonColor := true } : Globals) noFrameRuntime INFO
          "hi" ([] : List String)) = "[Log] 24-03-09 10:11:12 [ INFO] hi\n"
      ∧ ¬ ("?()".data <:+: (written (Print ({ ShowDepth := true, NonColor := true } : Globals)
            noFrameRuntime INFO "hi" ([] : List String))).data)
      ∧ depthInfo ({ ShowDepth := true } : Globals) noFuncRuntime = "[main.go:42 ?()] "
      ∧ "main.go:42".data <:+:
          (depthInfo ({ ShowDepth := true } : Globals) noFuncRuntime).data := by
  decide

/-- C5, amended: with ShowDepth set, a failed resolution does not make `Print` fail.
If the stack walk returns no frame the location segment is empty; if a frame is found
but no function for its program counter, the segment is the bracketed base name of the
file, a colon, the line number, a space and the placeholder `?()`, then a space.  In both
cases the line is written as usual around that segment. -/
theorem depth_resolution_failure {α : Type} (g : Globals) (rt : Runtime α) (level : Level)
    (format : String) (args : List α) (hflags : g.LevelFlags = LevelFlags)
    (hlevel : level ∈ [DEBUG, INFO, WARNING, ERROR, FATAL]) (hsd : g.ShowDepth = true) :
    (rt.Caller g.CallerDepth = none → depthInfo g rt = "")
      ∧ (∀ fr, rt.Caller g.CallerDepth = some fr → rt.FuncForPC fr.pc = none →
          depthInfo g rt = "[" ++ Base fr.file ++ ":" ++ toString fr.line ++ " " ++ "?()"
            ++ "] ")
      ∧ Print g rt level format args
          = Effect.stdout (logLine g rt level format args)
            :: (if level = FATAL then [Effect.exit 1] else []) := by
  refine ⟨?_, ?_, Print_trace g rt level format args hflags hlevel⟩
  · intro hnone
    simp [depthInfo, hsd, hnone]
  · intro fr hsome hfn
    simp only [depthInfo, hsd, hsome, hfn, if_true, Sprintf_depth]

/-- Instance of the amended C5: no function is found for the caller frame. -/
theorem depth_resolution_failure_witness :
    written (Print ({ ShowDepth := true, NonColor := true } : Globals) noFuncRuntime INFO
      "hi" ([] : List String)) = "[Log] 24-03-09 10:11:12 [ INFO] [main.go:42 ?()] hi\n" := by
  have h := depth_resolution_failure ({ ShowDepth := true, NonColor := true } : Globals)
    noFuncRuntime INFO "hi" ([] : List String) rfl (by decide) rfl
  rw [h.2.2]
  decide

/-- C7, as stated, fails: with NonColor set, a message that carries an escape
sequence is written with it. -/
theorem noncolor_message_escape :
    written (Print ({ NonColor := true } : Globals) demoRuntime INFO "\x1b[31m%s" ["red"])
        = "[Log] 24-03-09 10:11:12 [ INFO] \x1b[31mred\n"
      ∧ escSeq <:+: (written (Print ({ NonColor := true } : Globals) demoRuntime INFO
          "\x1b[31m%s" ["red"])).data := by
  decide

/-- C7, amended: at each of the five levels, with NonColor set, `Print` adds no escape
sequence of its own: the text written contains the two bytes ESC `[` exactly when the
prefix, the rendered timestamp, the location segment or the rendered message does. -/
theorem noncolor_adds_no_escape {α : Type} (g : Globals) (rt : Runtime α) (level : Level)
    (format : String) (args : List α) (hflags : g.LevelFlags = LevelFlags)
    (hnc : g.NonColor = true) (hlevel : level ∈ [DEBUG, INFO, WARNING, ERROR, FATAL]) :
    escSeq <:+: (written (Print g rt level format args)).data
      ↔ (escSeq <:+: g.Prefix.data ∨ escSeq <:+: (rt.Now g.TimeFormat).data
          ∨ escSeq <:+: (depthInfo g rt).data ∨ escSeq <:+: (rt.Sprintf format args).data) := by
  rw [Print_plain g rt level format args hflags hnc hlevel, written_trace]
  simp only [plainLine, String.data_append]
  constructor
  · intro h
    have h1 := esc_step_lit (by decide) (by decide) h
    have hsp : (g.Prefix.data ++ " ".data ++ (rt.Now g.TimeFormat).data ++ " [".data
        ++ (label level).data ++ "] ".data).getLast? = some ' ' := by
      simp only [List.getLast?_append]
      rfl
    have hd := getLast?_append_depthInfo g rt _ hsp
    rcases esc_step_seg (by rw [hd]; decide) h1 with h2 | h2
    · rcases esc_step_seg (by rw [hsp]; decide) h2 with h3 | h3
      · have h4 := esc_step_lit (by decide) (by decide) h3
        have h5 := esc_step_lit (label_no_esc level).1 (label_no_esc level).2 h4
        have h6 := esc_step_lit (by decide) (by decide) h5
        have hp : (g.Prefix.data ++ " ".data).getLast? = some ' ' := by
          simp only [List.getLast?_append]
          rfl
        rcases esc_step_seg (by rw [hp]; decide) h6 with h7 | h7
        · exact Or.inl (esc_step_lit (by decide) (by decide) h7)
        · exact Or.inr (Or.inl h7)
      · exact Or.inr (Or.inr (Or.inl h3))
    · exact Or.inr (Or.inr (Or.inr h2))
  · rintro (h | h | h | h)
    · exact infix_left (infix_left (infix_left (infix_left (infix_left (infix_left
        (infix_left (infix_left h)))))))
    · exact infix_left (infix_left (infix_left (infix_left (infix_left (infix_left
        (infix_right h))))))
    · exact infix_left (infix_left (infix_right h))
    · exact infix_left (infix_right h)

/-- Instance of the amended C7: nothing the caller supplies carries an escape sequence,
so the line written has none. -/
theorem noncolor_adds_no_escape_witness :
    ¬ escSeq <:+: (written (Print ({ NonColor := true } : Globals) demoRuntime INFO
      "user %s logged in" ["alice"])).data := by
  rw [noncolor_adds_no_escape ({ NonColor := true } : Globals) demoRuntime INFO
    "user %s logged in" ["alice"] rfl rfl (by decide)]
  decide

/-- C8, as stated, fails: a message that ends with a newline is followed by the
newline of `Print`, so the text written ends with two newlines. -/
theorem message_newline_doubles :
    written (Print ({ NonColor := true } : Globals) demoRuntime INFO "done\n"
        ([] : List String)) = "[Log] 24-03-09 10:11:12 [ INFO] done\n\n"
      ∧ (written (Print ({ NonColor := true } : Globals) demoRuntime INFO "done\n"
          ([] : List String))).data.getLast? = some '\n'
      ∧ (written (Print ({ NonColor := true } : Globals) demoRuntime INFO "done\n"
          ([] : List String))).data.dropLast.getLast? = some '\n' := by
  decide

/-- C8, amended: at each of the five levels and under either colour setting, the text
written begins with the configured prefix followed by a space and its last byte is the
newline `Print` appends; the byte before that newline is itself a newline exactly when
the rendered message ends with one. -/
theorem line_begins_and_ends {α : Type} (g : Globals) (rt : Runtime α) (level : Level)
    (format : String) (args : List α) (hflags : g.LevelFlags = LevelFlags)
    (hlevel : level ∈ [DEBUG, INFO, WARNING, ERROR, FATAL]) :
    (g.Prefix ++ " ").data <+: (written (Print g rt level format args)).data
      ∧ (written (Print g rt level format args)).data.getLast? = some '\n'
      ∧ ((written (Print g rt level format args)).data.dropLast.getLast? = some '\n'
          ↔ (rt.Sprintf format args).data.getLast? = some '\n') := by
  rw [Print_trace g rt level format args hflags hlevel, written_trace]
  have hor : ∀ o : Option Char, o.or (some ' ') = some '\n' ↔ o = some '\n' := by
    intro o
    cases o with
    | none => simp
    | some c => simp
  unfold logLine
  split
  · simp only [plainLine, String.data_append]
    refine ⟨?_, ?_, ?_⟩
    · simp only [List.append_assoc, List.prefix_append_right_inj]
      exact List.prefix_append _ _
    · simp only [List.append_assoc, List.getLast?_append]
      rfl
    · rw [List.dropLast_concat, List.getLast?_append, getLast?_append_depthInfo]
      · exact hor _
      · simp only [List.getLast?_append]
        rfl
  · simp only [colorLine, String.data_append]
    refine ⟨?_, ?_, ?_⟩
    · simp only [List.append_assoc, List.prefix_append_right_inj]
      exact List.prefix_append _ _
    · simp only [List.append_assoc, List.getLast?_append]
      rfl
    · rw [List.dropLast_concat, List.getLast?_append, getLast?_append_depthInfo]
      · exact hor _
      · simp only [List.getLast?_append]
        rfl

/-- Instance of the amended C8: a message without a final newline gives a line that
ends with a single newline. -/
theorem line_begins_and_ends_witness :
    (written (Print ({} : Globals) demoRuntime INFO "user %s logged in" ["alice"])
        ).data.dropLast.getLast? ≠ some '\n' := by
  intro h
  have hm := (line_begins_and_ends ({} : Globals) demoRuntime INFO "user %s logged in"
    ["alice"] rfl (by decide)).2.2.mp h
  revert hm
  decide

/-- C10: with ShowDepth set, when the caller frame resolves to file `f`, line `n` and
function name `q`, the location segment is exactly `[`, base(f), `:`, n, a space,
short(q), `()] `.  For a path `f` that names a file (it has a character other than the
separator), base(f) is the last element of `f`: it is not empty, has no separator, and
sits in `f` after the start or a separator and before trailing separators only.  For a
qualified name `q` (a qualifier, a dot, and a name without slash), short(q) is what
follows the last dot of `q` and has neither dot nor slash. -/
theorem location_segment_format {α : Type} (g : Globals) (rt : Runtime α) (fr : Frame)
    (q : String) (hsd : g.ShowDepth = true) (hcaller : rt.Caller g.CallerDepth = some fr)
    (hfn : rt.FuncForPC fr.pc = some q) :
    depthInfo g rt
        = "[" ++ Base fr.file ++ ":" ++ toString fr.line ++ " " ++ TrimLeft (Ext q) "."
            ++ "()] "
      ∧ ((∃ c ∈ fr.file.data, c ≠ '/') →
          ∃ dir trail, fr.file.data = dir ++ (Base fr.file).data ++ trail
            ∧ (dir = [] ∨ dir.getLast? = some '/') ∧ (∀ c ∈ trail, c = '/')
            ∧ '/' ∉ (Base fr.file).data ∧ (Base fr.file).data ≠ [])
      ∧ ((∃ qual name, q.data = qual ++ '.' :: name ∧ '/' ∉ name) →
          ∃ qual, q.data = qual ++ '.' :: (TrimLeft (Ext q) ".").data
            ∧ '.' ∉ (TrimLeft (Ext q) ".").data ∧ '/' ∉ (TrimLeft (Ext q) ".").data) := by
  refine ⟨?_, Base_spec fr.file, shortName_spec q⟩
  simp only [depthInfo, hsd, hcaller, hfn, if_true, Sprintf_depth]
  apply String.ext
  simp [String.data_append]

/-- Instance of C10: the caller is the method `Run` of `*Server` in package
`github.com/u/app`, at line 42 of `/home/u/go/src/app/main.go`. -/
theorem location_segment_format_witness :
    depthInfo ({ ShowDepth := true } : Globals) demoRuntime = "[main.go:42 Run()] "
      ∧ (∃ dir trail, "/home/u/go/src/app/main.go".data = dir ++ "main.go".data ++ trail
          ∧ (dir = [] ∨ dir.getLast? = some '/') ∧ (∀ c ∈ trail, c = '/')
          ∧ '/' ∉ "main.go".data ∧ "main.go".data ≠ [])
      ∧ (∃ qual, "github.com/u/app.(*Server).Run".data = qual ++ '.' :: "Run".data
          ∧ '.' ∉ "Run".data ∧ '/' ∉ "Run".data) := by
  have h := location_segment_format ({ ShowDepth := true } : Globals) demoRuntime
    { pc := 7, file := "/home/u/go/src/app/main.go", line := 42 }
    "github.com/u/app.(*Server).Run" rfl rfl rfl
  have hB : Base "/home/u/go/src/app/main.go" = "main.go" := by decide
  have hS : TrimLeft (Ext "github.com/u/app.(*Server).Run") "." = "Run" := by decide
  refine ⟨h.1.trans (by decide), ?_, ?_⟩
  · have h2 := h.2.1 ⟨'h', by decide, by decide⟩
    rw [hB] at h2
    exact h2
  · have h3 := h.2.2 ⟨"github.com/u/app.(*Server)".data, "Run".data, by decide, by decide⟩
    rw [hS] at h3
    exact h3

end Log
